import Mathlib

/-!
Verification of the respiration-to-MIDI pipeline scripts
(`resp_live_play.py`, `resp_live_mod.py`, `resp_prerec_play.py`,
`resp_prerec_mod.py`).  Python floats are embedded as exact rationals `ℚ`,
Python ints as `ℤ`; fallible operations return `Except`/`Option`.
-/

namespace RespMusic

/-- A MIDI message sent through the `MidiOut` wrapper: `note_on(note, velocity)`,
`note_off(note)` or `control_change(cc, value, channel)`. -/
inductive MidiEvent where
  | note_on : ℤ → ℤ → MidiEvent
  | note_off : ℤ → MidiEvent
  | control_change : ℤ → ℤ → ℤ → MidiEvent
deriving DecidableEq, Repr

/-- `np.clip(q, 0.0, 1.0)` from the mappers: `min (max q 0) 1`. -/
def clip01 (q : ℚ) : ℚ := min (max q 0) 1

/-- Python 3's built-in `round` on an exact value: round to the nearest
integer, with a tie (fractional part exactly 1/2) resolved to the even
neighbour (banker's rounding), as `float.__round__`/`np.float64.__round__`
do. -/
def pyRound (q : ℚ) : ℤ :=
  if q - ⌊q⌋ < 1/2 then ⌊q⌋
  else if 1/2 < q - ⌊q⌋ then ⌊q⌋ + 1
  else if Even ⌊q⌋ then ⌊q⌋ else ⌊q⌋ + 1

/-- `map_amp_to_note(x, xmin, xmax, note_min, note_max)` from
`resp_live_play.py` lines 96–105 (identical in `resp_prerec_play.py`):
degenerate-range fallback to `note_min`, otherwise clamp the normalised
fraction to `[0,1]`, interpolate into the note range and round. -/
def map_amp_to_note (x xmin xmax : ℚ) (note_min note_max : ℤ) : ℤ :=
  if xmax ≤ xmin then note_min
  else
    pyRound ((note_min : ℚ) + clip01 ((x - xmin) / (xmax - xmin)) * ((note_max : ℚ) - (note_min : ℚ)))

/-- `map_amp_to_cc(x, xmin, xmax)` from `resp_live_mod.py` lines 96–105
(identical in `resp_prerec_mod.py`): degenerate-range fallback to `0`,
otherwise clamp, interpolate into `[0, 127]` and round. -/
def map_amp_to_cc (x xmin xmax : ℚ) : ℤ :=
  if xmax ≤ xmin then 0
  else pyRound (clip01 ((x - xmin) / (xmax - xmin)) * 127)

/-- One step of the note on/off logic of `resp_live_play.py` lines 192–198
(equivalently `resp_prerec_play.py` lines 141–147): given the previous
sounding note `prev` and the freshly mapped `note`, return the new
`prev_note` together with the MIDI events sent, in emission order. -/
def noteStep (velocity : ℤ) (prev : Option ℤ) (note : ℤ) :
    Option ℤ × List MidiEvent :=
  match prev with
  | none => (some note, [.note_on note velocity])
  | some p =>
      if note = p then (some p, [])
      else (some note, [.note_off p, .note_on note velocity])

/-- Feed a list of mapped notes through `noteStep`, starting from state
`prev`, collecting all emitted events in order. -/
def driveNotes (velocity : ℤ) (prev : Option ℤ) : List ℤ → Option ℤ × List MidiEvent
  | [] => (prev, [])
  | n :: ns =>
      let s := noteStep velocity prev n
      let r := driveNotes velocity s.1 ns
      (r.1, s.2 ++ r.2)

/-- The `except KeyboardInterrupt` handler that ends `bridge_worker` in
`resp_live_play.py` (lines 200–201) and `resp_prerec_play.py`
(lines 151–152): it only logs a message; no MIDI message is sent,
whatever the current `prev_note` is. -/
def bridgeShutdownEvents (_prev : Option ℤ) : List MidiEvent := []

theorem floor_le_pyRound (q : ℚ) : ⌊q⌋ ≤ pyRound q := by
  unfold pyRound; split_ifs <;> omega

theorem pyRound_le_floor_add_one (q : ℚ) : pyRound q ≤ ⌊q⌋ + 1 := by
  unfold pyRound; split_ifs <;> omega

theorem pyRound_intCast (n : ℤ) : pyRound (n : ℚ) = n := by
  unfold pyRound
  norm_num

theorem pyRound_mono {p q : ℚ} (h : p ≤ q) : pyRound p ≤ pyRound q := by
  rcases lt_or_eq_of_le (Int.floor_le_floor h) with hf | hf
  · calc pyRound p ≤ ⌊p⌋ + 1 := pyRound_le_floor_add_one p
      _ ≤ ⌊q⌋ := by omega
      _ ≤ pyRound q := floor_le_pyRound q
  · unfold pyRound
    rw [← hf]
    split_ifs <;> first | omega | linarith

theorem abs_sub_pyRound_le (q : ℚ) : |q - pyRound q| ≤ 1/2 := by
  have h0 : (⌊q⌋ : ℚ) ≤ q := Int.floor_le q
  have h1 : q < ⌊q⌋ + 1 := Int.lt_floor_add_one q
  unfold pyRound
  split_ifs <;> rw [abs_le] <;> constructor <;> push_cast <;> linarith

theorem pyRound_tie_even {q : ℚ} (h : q - ⌊q⌋ = 1/2) : Even (pyRound q) := by
  unfold pyRound
  rw [h]
  norm_num
  split_ifs with he
  · exact he
  · exact Int.even_add_one.mpr he

theorem clip01_nonneg (q : ℚ) : 0 ≤ clip01 q :=
  le_min (le_max_right q 0) (by norm_num)

theorem clip01_le_one (q : ℚ) : clip01 q ≤ 1 := min_le_right _ _

theorem clip01_mono {p q : ℚ} (h : p ≤ q) : clip01 p ≤ clip01 q :=
  min_le_min (max_le_max h le_rfl) le_rfl

/-- C3: from the Silent state, the mapped-note sequence `[40, 40, 41, 41, 40]`
emits exactly `[note_on 40, note_off 40, note_on 41, note_off 41, note_on 40]`
(for any velocity): repeats emit nothing, and on a change the previous
note's note_off precedes the new note_on. -/
theorem driveNotes_sample_sequence (v : ℤ) :
    driveNotes v none [40, 40, 41, 41, 40] =
      (some 40,
       [.note_on 40 v, .note_off 40, .note_on 41 v,
        .note_off 41, .note_on 40 v]) := by
  simp [driveNotes, noteStep]

/-- C5: on a degenerate calibration range (`xmax ≤ xmin`) the note mapper
returns `note_min` and the controller mapper returns `0`, for every input. -/
theorem map_degenerate_range (x xmin xmax : ℚ) (note_min note_max : ℤ)
    (h : xmax ≤ xmin) :
    map_amp_to_note x xmin xmax note_min note_max = note_min ∧
    map_amp_to_cc x xmin xmax = 0 := by
  constructor <;> simp [map_amp_to_note, map_amp_to_cc, h]

/-- Witness for C5 at `x = 7`, range `[3, 2]`, notes `[40, 80]`. -/
theorem map_degenerate_range_witness :
    map_amp_to_note 7 3 2 40 80 = 40 ∧ map_amp_to_cc 7 3 2 = 0 :=
  map_degenerate_range 7 3 2 40 80 (by norm_num)

/-- C6: on a proper range (`xmin < xmax`) with `note_min ≤ note_max`, the
note mapper is exact at the boundaries: `xmin ↦ note_min` and
`xmax ↦ note_max`. -/
theorem map_boundary_exact (xmin xmax : ℚ) (note_min note_max : ℤ)
    (hx : xmin < xmax) (_hn : note_min ≤ note_max) :
    map_amp_to_note xmin xmin xmax note_min note_max = note_min ∧
    map_amp_to_note xmax xmin xmax note_min note_max = note_max := by
  have hd : xmax - xmin ≠ 0 := by linarith
  constructor
  · rw [map_amp_to_note, if_neg (not_le.mpr hx)]
    have : clip01 ((xmin - xmin) / (xmax - xmin)) = 0 := by
      simp [clip01]
    rw [this]
    simpa using pyRound_intCast note_min
  · rw [map_amp_to_note, if_neg (not_le.mpr hx)]
    have : clip01 ((xmax - xmin) / (xmax - xmin)) = 1 := by
      rw [div_self hd]
      simp [clip01]
    rw [this, one_mul]
    have : (note_min : ℚ) + ((note_max : ℚ) - (note_min : ℚ)) = (note_max : ℚ) := by ring
    rw [this]
    exact pyRound_intCast note_max

/-- Witness for C6 at range `[0, 2]`, notes `[40, 80]`. -/
theorem map_boundary_exact_witness :
    map_amp_to_note 0 0 2 40 80 = 40 ∧ map_amp_to_note 2 0 2 40 80 = 80 :=
  map_boundary_exact 0 2 40 80 (by norm_num) (by norm_num)

/-- C7: on a proper range with `note_min ≤ note_max`, the note mapper's
output always lies in `[note_min, note_max]`, and it is monotone
non-decreasing in the input amplitude. -/
theorem map_bounds_and_mono (xmin xmax : ℚ) (note_min note_max : ℤ)
    (hx : xmin < xmax) (hn : note_min ≤ note_max) :
    (∀ x : ℚ, note_min ≤ map_amp_to_note x xmin xmax note_min note_max ∧
      map_amp_to_note x xmin xmax note_min note_max ≤ note_max) ∧
    (∀ x1 x2 : ℚ, x1 ≤ x2 →
      map_amp_to_note x1 xmin xmax note_min note_max ≤
        map_amp_to_note x2 xmin xmax note_min note_max) := by
  have hspan : (0 : ℚ) ≤ (note_max : ℚ) - (note_min : ℚ) := by
    have h : (note_min : ℚ) ≤ (note_max : ℚ) := by exact_mod_cast hn
    linarith
  constructor
  · intro x
    rw [map_amp_to_note, if_neg (not_le.mpr hx)]
    have hc0 := clip01_nonneg ((x - xmin) / (xmax - xmin))
    have hc1 := clip01_le_one ((x - xmin) / (xmax - xmin))
    set c := clip01 ((x - xmin) / (xmax - xmin)) with hc
    have hlo : (note_min : ℚ) ≤ (note_min : ℚ) + c * ((note_max : ℚ) - (note_min : ℚ)) := by
      nlinarith
    have hhi : (note_min : ℚ) + c * ((note_max : ℚ) - (note_min : ℚ)) ≤ (note_max : ℚ) := by
      nlinarith
    constructor
    · have := pyRound_mono hlo
      rwa [pyRound_intCast] at this
    · have := pyRound_mono hhi
      rwa [pyRound_intCast] at this
  · intro x1 x2 h12
    rw [map_amp_to_note, map_amp_to_note, if_neg (not_le.mpr hx), if_neg (not_le.mpr hx)]
    apply pyRound_mono
    have hfrac : (x1 - xmin) / (xmax - xmin) ≤ (x2 - xmin) / (xmax - xmin) := by
      apply div_le_div_of_nonneg_right (by linarith) (by linarith)
    have := clip01_mono hfrac
    nlinarith [this, hspan]

/-- Witness for C7 at range `[0, 2]`, notes `[40, 80]`, inputs `1 ≤ 2`. -/
theorem map_bounds_and_mono_witness :
    (40 ≤ map_amp_to_note 1 0 2 40 80 ∧ map_amp_to_note 1 0 2 40 80 ≤ 80) ∧
    map_amp_to_note 1 0 2 40 80 ≤ map_amp_to_note 2 0 2 40 80 :=
  ⟨(map_bounds_and_mono 0 2 40 80 (by norm_num) (by norm_num)).1 1,
   (map_bounds_and_mono 0 2 40 80 (by norm_num) (by norm_num)).2 1 2 (by norm_num)⟩

/-- C8 counterexample: with range `[0, 1]` and notes `[40, 41]`, the input
`x = 1/2` interpolates to exactly `40 + 1/2`, so the claimed half-up tie
rule demands `41`; the code (Python's banker's rounding) returns `40`. -/
theorem map_round_half_up_counterexample :
    (40 : ℚ) + ((1/2 - 0) / ((1 : ℚ) - 0)) * (41 - 40) = 40 + 1/2 ∧
    map_amp_to_note (1/2) 0 1 40 41 = 40 := by
  constructor
  · norm_num
  · rw [map_amp_to_note, if_neg (by norm_num)]
    have hc : clip01 ((1/2 - 0) / ((1 : ℚ) - 0)) = 1/2 := by
      simp [clip01]
      norm_num
    rw [hc]
    unfold pyRound
    norm_num [Int.even_iff]

/-- C8 (amended): on a proper range, the note mapper returns the clamped,
linearly interpolated value rounded to the nearest integer — the distance
from the interpolated value to the returned note is at most 1/2 — and a
tie (interpolated value exactly halfway between two integers) is resolved
to the even neighbour, not half-up. -/
theorem map_round_nearest_ties_even (x xmin xmax : ℚ) (note_min note_max : ℤ)
    (hx : xmin < xmax) :
    |((note_min : ℚ) + clip01 ((x - xmin) / (xmax - xmin)) * ((note_max : ℚ) - (note_min : ℚ)))
        - (map_amp_to_note x xmin xmax note_min note_max : ℚ)| ≤ 1/2 ∧
    (((note_min : ℚ) + clip01 ((x - xmin) / (xmax - xmin)) * ((note_max : ℚ) - (note_min : ℚ)))
        - ⌊(note_min : ℚ) + clip01 ((x - xmin) / (xmax - xmin)) * ((note_max : ℚ) - (note_min : ℚ))⌋ = 1/2 →
      Even (map_amp_to_note x xmin xmax note_min note_max)) := by
  rw [map_amp_to_note, if_neg (not_le.mpr hx)]
  exact ⟨abs_sub_pyRound_le _, fun h => pyRound_tie_even h⟩

/-- Witness for C8 at `x = 1/2`, range `[0, 1]`, notes `[40, 41]` (the tie
input: the interpolated value is `40.5` and the returned note `40` is even). -/
theorem map_round_nearest_ties_even_witness :
    |((40 : ℚ) + clip01 ((1/2 - 0) / ((1 : ℚ) - 0)) * ((41 : ℚ) - (40 : ℚ)))
        - (map_amp_to_note (1/2) 0 1 40 41 : ℚ)| ≤ 1/2 :=
  (map_round_nearest_ties_even (1/2) 0 1 40 41 (by norm_num)).1

/-- The two ways `RespFilter.__init__` can raise before any sample is
processed: `cutoff / nyq` with `nyq = 0` raises `ZeroDivisionError`, and
`scipy.signal.butter(2, norm, btype="low")` raises `ValueError` unless the
normalized critical frequency satisfies `0 < norm < 1`. -/
inductive InitError where
  | zeroDivision : InitError
  | invalidCriticalFrequency : InitError
deriving DecidableEq, Repr

/-- `RespFilter.__init__(fs, cutoff)` from `resp_live_play.py` lines 45–50
(identical in the other three scripts): `nyq = 0.5 * fs`,
`norm = cutoff / nyq` (raises on `nyq = 0`), `butter(2, norm, "low")`
(raises unless `0 < norm < 1`), then `self.z = lfilter_zi(b, a) * 0.0`,
which is the zero vector of length 2 whatever `lfilter_zi` returned.  The
irrational Butterworth coefficients `b`, `a` are used by no claim and are
not carried; the returned pair is the initial state vector `z`. -/
def RespFilter.init (fs cutoff : ℚ) : Except InitError (ℚ × ℚ) :=
  if 0.5 * fs = 0 then
    .error .zeroDivision
  else if cutoff / (0.5 * fs) ≤ 0 ∨ 1 ≤ cutoff / (0.5 * fs) then
    .error .invalidCriticalFrequency
  else
    .ok (0, 0)

/-- C9 counterexample.  First conjunct: `(fs, cutoff) = (100, 0)` is
"valid" by the claim (`cutoff < 0.5·fs` and `fs > 0`), yet construction
fails (`butter` rejects normalized cutoff `0`).  Second conjunct:
`(fs, cutoff) = (-4, -1)` has `fs ≤ 0`, for which the claim demands
failure, yet construction succeeds (normalized cutoff `1/2`). -/
theorem respFilter_init_counterexample :
    (¬ ((0 : ℚ) ≥ 0.5 * 100 ∨ (100 : ℚ) ≤ 0) ∧
      RespFilter.init 100 0 = .error .invalidCriticalFrequency) ∧
    (((-4 : ℚ) ≤ 0) ∧ RespFilter.init (-4) (-1) = .ok (0, 0)) := by
  refine ⟨⟨by norm_num, ?_⟩, ⟨by norm_num, ?_⟩⟩ <;>
    rw [RespFilter.init] <;> norm_num

/-- C9 (amended): for `fs > 0`, construction fails exactly when
`cutoff ≤ 0` or `cutoff ≥ 0.5·fs` (normalized cutoff outside `(0, 1)`);
for `0 < cutoff < 0.5·fs` it succeeds with the internal filter state
initialized to the zero vector. -/
theorem respFilter_init_spec (fs cutoff : ℚ) (hfs : 0 < fs) :
    ((∃ e, RespFilter.init fs cutoff = .error e) ↔
      (cutoff ≤ 0 ∨ 0.5 * fs ≤ cutoff)) ∧
    (0 < cutoff → cutoff < 0.5 * fs → RespFilter.init fs cutoff = .ok (0, 0)) := by
  have hnyq : (0 : ℚ) < 0.5 * fs := by linarith
  have h1 : cutoff / (0.5 * fs) ≤ 0 ↔ cutoff ≤ 0 := by
    rw [div_le_iff₀ hnyq, zero_mul]
  have h2 : 1 ≤ cutoff / (0.5 * fs) ↔ 0.5 * fs ≤ cutoff := by
    rw [le_div_iff₀ hnyq, one_mul]
  rw [RespFilter.init, if_neg (ne_of_gt hnyq)]
  split_ifs with hcond
  · constructor
    · constructor
      · intro _
        rcases hcond with h | h
        · exact Or.inl (h1.mp h)
        · exact Or.inr (h2.mp h)
      · intro _
        exact ⟨.invalidCriticalFrequency, rfl⟩
    · intro hc0 hcub
      exfalso
      rcases hcond with h | h
      · exact absurd (h1.mp h) (not_le.mpr hc0)
      · exact absurd (h2.mp h) (not_le.mpr hcub)
  · push_neg at hcond
    constructor
    · constructor
      · rintro ⟨e, he⟩
        exact absurd he (by simp)
      · rintro (h | h)
        · exact absurd (h1.mpr h) (not_le.mpr hcond.1)
        · exact absurd (h2.mpr h) (not_le.mpr hcond.2)
    · intro _ _
      rfl

/-- Witness for C9 at `fs = 1000`, `cutoff = 1` (the documented end-to-end
scenario parameters): `0 < cutoff < 0.5·fs`, so construction succeeds with
zero state, and the failure condition is indeed not met. -/
theorem respFilter_init_spec_witness :
    (¬ ∃ e, RespFilter.init 1000 1 = .error e) ∧
    RespFilter.init 1000 1 = .ok (0, 0) := by
  have h := respFilter_init_spec 1000 1 (by norm_num)
  refine ⟨fun he => ?_, h.2 (by norm_num) (by norm_num)⟩
  rcases h.1.mp he with h' | h' <;> norm_num at h'

/-- Stream selection from `resp_live_play.py` line 137 and
`resp_live_mod.py` line 129: `streams[min(args.stream_index, len(streams)-1)]`,
reached only after the empty-list guard has returned early. -/
def selectStream {α : Type} (streams : List α) (idx : ℕ) : Option α :=
  streams[min idx (streams.length - 1)]?

/-- C10: for a non-empty stream list and a non-negative configured index,
selection indexes at `min idx (length - 1)` (always in range), and an
index at or beyond the length silently selects the last stream. -/
theorem selectStream_spec {α : Type} (streams : List α) (idx : ℕ)
    (h : streams ≠ []) :
    (∃ hlt : min idx (streams.length - 1) < streams.length,
        selectStream streams idx =
          some (streams.get ⟨min idx (streams.length - 1), hlt⟩)) ∧
    (streams.length ≤ idx →
        selectStream streams idx = some (streams.getLast h)) := by
  have hpos : 0 < streams.length := List.length_pos.mpr h
  have hlt : min idx (streams.length - 1) < streams.length :=
    lt_of_le_of_lt (min_le_right _ _) (by omega)
  refine ⟨⟨hlt, ?_⟩, fun hidx => ?_⟩
  · rw [selectStream, List.getElem?_eq_getElem hlt]
    rfl
  · have hmin : min idx (streams.length - 1) = streams.length - 1 := by omega
    rw [selectStream, hmin,
      List.getElem?_eq_getElem (by omega : streams.length - 1 < streams.length)]
    rw [List.getLast_eq_getElem]

/-- Witness for C10: three streams, configured index 7 — selection
returns the last stream. -/
theorem selectStream_spec_witness :
    selectStream [10, 20, 30] 7 = some ((30 : ℤ)) ∧
    selectStream [10, 20, 30] 7 = some (([10, 20, 30] : List ℤ).getLast (by simp)) :=
  ⟨by
    have h := (selectStream_spec ([10, 20, 30] : List ℤ) 7 (by simp)).2 (by simp)
    simpa using h,
   (selectStream_spec ([10, 20, 30] : List ℤ) 7 (by simp)).2 (by simp)⟩

/-- The relay queue `queue.Queue(maxsize=2000)` constructed in `main`
(`resp_live_play.py` line 209 and the same line of the other scripts):
a bounded FIFO with capacity fixed at construction. -/
structure RelayQueue where
  capacity : ℕ
  items : List ℚ
deriving DecidableEq, Repr

/-- `Queue.put_nowait(v)` semantics from CPython's `queue` module for a
positive `maxsize`: when the queue is full (`qsize == maxsize`) it raises
`queue.Full` immediately (no blocking); otherwise it appends `v` at the
tail.  The `bridge_worker` call sites (`resp_live_play.py` line 184 and
its three siblings) do not catch `queue.Full`. -/
def RelayQueue.putNowait (q : RelayQueue) (v : ℚ) : Except Unit RelayQueue :=
  if q.items.length < q.capacity then .ok ⟨q.capacity, q.items ++ [v]⟩
  else .error ()

/-- Run a sequence of producer enqueues.  An uncaught `queue.Full` aborts
the producer loop, so no later value is enqueued after a raise. -/
def RelayQueue.putAll (q : RelayQueue) : List ℚ → RelayQueue
  | [] => q
  | v :: vs =>
      match q.putNowait v with
      | .ok q' => q'.putAll vs
      | .error _ => q

theorem putNowait_full {q : RelayQueue} (v : ℚ)
    (h : q.capacity ≤ q.items.length) : q.putNowait v = .error () := by
  rw [RelayQueue.putNowait, if_neg (by omega)]

/-- C2 counterexample: a full capacity-2000 relay queue rejects the next
enqueue by raising `queue.Full` — it is not a silent drop. -/
theorem relay_put_full_counterexample :
    RelayQueue.putNowait ⟨2000, List.replicate 2000 0⟩ 1 = .error () := by
  apply putNowait_full
  show (2000 : ℕ) ≤ (List.replicate 2000 (0 : ℚ)).length
  rw [List.length_replicate]

/-- C2 (amended): the producer enqueue never blocks and never grows the
queue beyond its fixed capacity, but an enqueue onto a full queue raises
`queue.Full` (rejecting the new value) rather than dropping it silently. -/
theorem relay_bounded_and_rejects (q : RelayQueue) (vs : List ℚ) (v : ℚ)
    (h : q.items.length ≤ q.capacity) :
    ((q.putAll vs).capacity = q.capacity ∧
      (q.putAll vs).items.length ≤ q.capacity) ∧
    (q.items.length = q.capacity → q.putNowait v = .error ()) := by
  constructor
  · induction vs generalizing q with
    | nil => exact ⟨rfl, h⟩
    | cons w ws ih =>
        rw [RelayQueue.putAll, RelayQueue.putNowait]
        split_ifs with hlt
        · have := ih ⟨q.capacity, q.items ++ [w]⟩ (by simp; omega)
          simpa using this
        · exact ⟨rfl, h⟩
  · intro hfull
    rw [RelayQueue.putNowait, if_neg (by omega)]

/-- Witness for C2 (amended) at a capacity-2 queue already holding two
values: three further enqueues leave it at two items, and a single
enqueue raises. -/
theorem relay_bounded_and_rejects_witness :
    ((RelayQueue.putAll ⟨2, [5, 6]⟩ [1, 2, 3]).capacity = 2 ∧
      (RelayQueue.putAll ⟨2, [5, 6]⟩ [1, 2, 3]).items.length ≤ 2) ∧
    RelayQueue.putNowait ⟨2, [5, 6]⟩ 9 = .error () := by
  have h := relay_bounded_and_rejects ⟨2, [5, 6]⟩ [1, 2, 3] 9 (by simp)
  exact ⟨h.1, h.2 (by simp)⟩

/-- The calibration window length, `calibration_duration = 30.0` seconds
(`resp_live_play.py` line 127, `resp_live_mod.py` line 115). -/
def calibration_duration : ℚ := 30

/-- The per-run mapping configuration of the note modes: `args.note_low`,
`args.note_high`, `args.velocity`. -/
structure PlayConfig where
  noteLow : ℤ
  noteHigh : ℤ
  velocity : ℤ

/-- The mutable per-sample state of `bridge_worker` in `resp_live_play.py`:
`calibrating`, `amp_min`, `amp_max` (both `None` until the first
calibration sample) and `prev_note`. -/
structure PlayState where
  calibrating : Bool
  ampMin : Option ℚ
  ampMax : Option ℚ
  prevNote : Option ℤ
deriving DecidableEq, Repr

/-- The state at worker start: `calibrating = True`, `amp_min = amp_max =
None`, `prev_note = None` (`resp_live_play.py` lines 129, 146–148). -/
def PlayState.start : PlayState := ⟨true, none, none, none⟩

/-- One loop iteration of `bridge_worker` in `resp_live_play.py`
(lines 161–198) after the filter, on the filtered value `v` with
`elapsed = now - start_time`: while calibrating, update the running
min/max and flip `calibrating` once `elapsed ≥ calibration_duration`
(also resetting `prev_note`); push `v` to the relay; then, if no longer
calibrating (including the very sample on which the flip happened), map
the note and drive the note on/off logic.  `amp_min`/`amp_max` are
always set by the time `calibrating` is false, so the `Option.getD 0`
defaults are never the values read.  Returns (new state, MIDI events sent,
values pushed to the relay). -/
def livePlayStep (cfg : PlayConfig) (s : PlayState) (v elapsed : ℚ) :
    PlayState × List MidiEvent × List ℚ :=
  let s1 :=
    if s.calibrating then
      let mn := match s.ampMin with | none => v | some m => min m v
      let mx := match s.ampMax with | none => v | some m => max m v
      if calibration_duration ≤ elapsed then
        { calibrating := false, ampMin := some mn, ampMax := some mx,
          prevNote := none }
      else
        { s with ampMin := some mn, ampMax := some mx }
    else s
  if s1.calibrating then
    (s1, [], [v])
  else
    let note := map_amp_to_note v (s1.ampMin.getD 0) (s1.ampMax.getD 0)
      cfg.noteLow cfg.noteHigh
    let r := noteStep cfg.velocity s1.prevNote note
    ({ s1 with prevNote := r.1 }, r.2, [v])

/-- Run `livePlayStep` over a trace of (filtered value, elapsed time)
pairs, concatenating the MIDI events and relay pushes in order. -/
def livePlayRun (cfg : PlayConfig) (s : PlayState) :
    List (ℚ × ℚ) → PlayState × List MidiEvent × List ℚ
  | [] => (s, [], [])
  | p :: rest =>
      let r := livePlayStep cfg s p.1 p.2
      let r2 := livePlayRun cfg r.1 rest
      (r2.1, r.2.1 ++ r2.2.1, r.2.2 ++ r2.2.2)

/-- The mutable per-sample state of `bridge_worker` in `resp_live_mod.py`:
`calibrating`, `amp_min`, `amp_max`. -/
structure ModState where
  calibrating : Bool
  ampMin : Option ℚ
  ampMax : Option ℚ
deriving DecidableEq, Repr

/-- The state at worker start of the CC-mode script: `calibrating = True`,
`amp_min = amp_max = None` (`resp_live_mod.py` lines 117–120). -/
def ModState.start : ModState := ⟨true, none, none⟩

/-- One loop iteration of `bridge_worker` in `resp_live_mod.py`
(lines 144–169) after the filter: the relay push happens first
(line 147); while calibrating, update min/max and flip `calibrating` once
`elapsed ≥ calibration_duration` — no CC is sent on the flip sample,
because the `else` branch is not re-entered within the iteration;
once calibrated, send `control_change(args.cc, mapped value,
args.channel_midi)`. -/
def liveModStep (cc chMidi : ℤ) (s : ModState) (v elapsed : ℚ) :
    ModState × List MidiEvent × List ℚ :=
  if s.calibrating then
    let mn := match s.ampMin with | none => v | some m => min m v
    let mx := match s.ampMax with | none => v | some m => max m v
    (⟨if calibration_duration ≤ elapsed then false else true,
      some mn, some mx⟩, [], [v])
  else
    (s, [.control_change cc (map_amp_to_cc v (s.ampMin.getD 0) (s.ampMax.getD 0)) chMidi],
     [v])

/-- Run `liveModStep` over a trace of (filtered value, elapsed time)
pairs. -/
def liveModRun (cc chMidi : ℤ) (s : ModState) :
    List (ℚ × ℚ) → ModState × List MidiEvent × List ℚ
  | [] => (s, [], [])
  | p :: rest =>
      let r := liveModStep cc chMidi s p.1 p.2
      let r2 := liveModRun cc chMidi r.1 rest
      (r2.1, r.2.1 ++ r2.2.1, r.2.2 ++ r2.2.2)

theorem livePlayStep_calibrating (cfg : PlayConfig) (s : PlayState)
    (v elapsed : ℚ) (hs : s.calibrating = true)
    (ht : elapsed < calibration_duration) :
    (livePlayStep cfg s v elapsed).1.calibrating = true ∧
    (livePlayStep cfg s v elapsed).2.1 = [] ∧
    (livePlayStep cfg s v elapsed).2.2 = [v] := by
  rw [livePlayStep]
  simp [hs, not_le.mpr ht]

theorem liveModStep_calibrating (cc chMidi : ℤ) (s : ModState)
    (v elapsed : ℚ) (hs : s.calibrating = true)
    (ht : elapsed < calibration_duration) :
    (liveModStep cc chMidi s v elapsed).1.calibrating = true ∧
    (liveModStep cc chMidi s v elapsed).2.1 = [] ∧
    (liveModStep cc chMidi s v elapsed).2.2 = [v] := by
  rw [liveModStep]
  simp [hs, not_le.mpr ht]

theorem livePlayRun_calibrating (cfg : PlayConfig) (s : PlayState)
    (trace : List (ℚ × ℚ)) (hs : s.calibrating = true)
    (h : ∀ p ∈ trace, p.2 < calibration_duration) :
    (livePlayRun cfg s trace).2.1 = [] ∧
    (livePlayRun cfg s trace).2.2 = trace.map Prod.fst := by
  induction trace generalizing s with
  | nil => exact ⟨rfl, rfl⟩
  | cons p rest ih =>
      have hstep := livePlayStep_calibrating cfg s p.1 p.2 hs
        (h p (List.mem_cons_self p rest))
      have hrest := ih (livePlayStep cfg s p.1 p.2).1 hstep.1
        (fun q hq => h q (List.mem_cons_of_mem p hq))
      rw [livePlayRun]
      simp [hstep.2.1, hstep.2.2, hrest.1, hrest.2]

theorem liveModRun_calibrating (cc chMidi : ℤ) (s : ModState)
    (trace : List (ℚ × ℚ)) (hs : s.calibrating = true)
    (h : ∀ p ∈ trace, p.2 < calibration_duration) :
    (liveModRun cc chMidi s trace).2.1 = [] ∧
    (liveModRun cc chMidi s trace).2.2 = trace.map Prod.fst := by
  induction trace generalizing s with
  | nil => exact ⟨rfl, rfl⟩
  | cons p rest ih =>
      have hstep := liveModStep_calibrating cc chMidi s p.1 p.2 hs
        (h p (List.mem_cons_self p rest))
      have hrest := ih (liveModStep cc chMidi s p.1 p.2).1 hstep.1
        (fun q hq => h q (List.mem_cons_of_mem p hq))
      rw [liveModRun]
      simp [hstep.2.1, hstep.2.2, hrest.1, hrest.2]

/-- C4: in both live scripts, as long as every processed sample's elapsed
wall-clock time is still below the 30-second calibration window, no MIDI
device event is emitted and each filtered value goes to the visualization
relay. -/
theorem calibration_window_silent (cfg : PlayConfig) (cc chMidi : ℤ)
    (trace : List (ℚ × ℚ))
    (h : ∀ p ∈ trace, p.2 < calibration_duration) :
    ((livePlayRun cfg PlayState.start trace).2.1 = [] ∧
      (livePlayRun cfg PlayState.start trace).2.2 = trace.map Prod.fst) ∧
    ((liveModRun cc chMidi ModState.start trace).2.1 = [] ∧
      (liveModRun cc chMidi ModState.start trace).2.2 = trace.map Prod.fst) :=
  ⟨livePlayRun_calibrating cfg PlayState.start trace rfl h,
   liveModRun_calibrating cc chMidi ModState.start trace rfl h⟩

/-- Witness for C4 on a two-sample trace entirely inside the window. -/
theorem calibration_window_silent_witness :
    ((livePlayRun ⟨40, 80, 100⟩ PlayState.start [(1, 0), (2, 10)]).2.1 = [] ∧
      (livePlayRun ⟨40, 80, 100⟩ PlayState.start [(1, 0), (2, 10)]).2.2 = [1, 2]) ∧
    ((liveModRun 115 0 ModState.start [(1, 0), (2, 10)]).2.1 = [] ∧
      (liveModRun 115 0 ModState.start [(1, 0), (2, 10)]).2.2 = [1, 2]) := by
  have h := calibration_window_silent ⟨40, 80, 100⟩ 115 0 [(1, 0), (2, 10)]
    (by intro p hp; rw [calibration_duration]; fin_cases hp <;> norm_num)
  simpa using h

/-- Number of `note_on` events for note `m` (any velocity) in an event
list. -/
def onCount (m : ℤ) : List MidiEvent → ℕ
  | [] => 0
  | .note_on n _ :: es => (if n = m then 1 else 0) + onCount m es
  | .note_off _ :: es => onCount m es
  | .control_change _ _ _ :: es => onCount m es

/-- Number of `note_off` events for note `m` in an event list. -/
def offCount (m : ℤ) : List MidiEvent → ℕ
  | [] => 0
  | .note_on _ _ :: es => offCount m es
  | .note_off n :: es => (if n = m then 1 else 0) + offCount m es
  | .control_change _ _ _ :: es => offCount m es

theorem onCount_append (m : ℤ) (a b : List MidiEvent) :
    onCount m (a ++ b) = onCount m a + onCount m b := by
  induction a with
  | nil => simp [onCount]
  | cons e es ih => cases e <;> simp [onCount, ih] <;> omega

theorem offCount_append (m : ℤ) (a b : List MidiEvent) :
    offCount m (a ++ b) = offCount m a + offCount m b := by
  induction a with
  | nil => simp [offCount]
  | cons e es ih => cases e <;> simp [offCount, ih] <;> omega

/-- The note on/off bookkeeping invariant of the note modes: relative to
the starting `prev_note`, every note's emitted note_on events exceed its
note_off events by one exactly when it is the currently sounding note. -/
theorem driveNotes_balance (vel m : ℤ) (notes : List ℤ) :
    ∀ prev : Option ℤ,
      onCount m (driveNotes vel prev notes).2 +
          (if prev = some m then 1 else 0) =
        offCount m (driveNotes vel prev notes).2 +
          (if (driveNotes vel prev notes).1 = some m then 1 else 0) := by
  induction notes with
  | nil => intro prev; simp [driveNotes, onCount, offCount]
  | cons n ns ih =>
      intro prev
      cases prev with
      | none =>
          have h := ih (some n)
          simp [driveNotes, noteStep, onCount, offCount,
            onCount_append, offCount_append] at h ⊢
          split_ifs at h ⊢ <;> omega
      | some p =>
          by_cases hn : n = p
          · have h := ih (some p)
            simp [driveNotes, noteStep, hn, onCount, offCount,
              onCount_append, offCount_append] at h ⊢
            split_ifs at h ⊢ <;> omega
          · have h := ih (some n)
            simp [driveNotes, noteStep, hn, onCount, offCount,
              onCount_append, offCount_append] at h ⊢
            split_ifs at h ⊢ <;> omega

/-- C1 evidence (the code violates the claim): the termination handler
emits nothing, so whenever a note-mode run ends with the machine in
Sounding(n), the full event list — run events plus the shutdown
handler's — holds one more `note_on(n)` than `note_off(n)`: the
termination path emits zero (not exactly one) `note_off(n)` and the note
is left sounding. -/
theorem shutdown_leaves_note_stuck (vel n : ℤ) (notes : List ℤ)
    (h : (driveNotes vel none notes).1 = some n) :
    bridgeShutdownEvents (driveNotes vel none notes).1 = [] ∧
    offCount n ((driveNotes vel none notes).2 ++
        bridgeShutdownEvents (driveNotes vel none notes).1) + 1 =
      onCount n ((driveNotes vel none notes).2 ++
        bridgeShutdownEvents (driveNotes vel none notes).1) := by
  refine ⟨rfl, ?_⟩
  have hb := driveNotes_balance vel n notes none
  rw [h] at hb
  simp at hb
  simp [bridgeShutdownEvents]
  omega

/-- Witness for C1's evidence theorem on the one-note run `[40]`. -/
theorem shutdown_leaves_note_stuck_witness :
    (driveNotes 100 none [40]).1 = some 40 ∧
    offCount 40 ((driveNotes 100 none [40]).2 ++
        bridgeShutdownEvents (driveNotes 100 none [40]).1) + 1 =
      onCount 40 ((driveNotes 100 none [40]).2 ++
        bridgeShutdownEvents (driveNotes 100 none [40]).1) :=
  ⟨by simp [driveNotes, noteStep],
   (shutdown_leaves_note_stuck 100 40 [40] (by simp [driveNotes, noteStep])).2⟩

end RespMusic
